import Mathlib

/-!
Shallow embedding of the Derived Metrics and Risk Computation core of
src/dashboard.py (Symbiotic Dashboard V8).

Numbers are modelled as rationals.  A nullable dictionary field is modelled
as "Option (Option Rat)": the outer "none" means the key is missing from the
row, "some none" means the key is present with value None (SQL null), and
"some (some q)" means the key holds the number q.  This mirrors Python,
where "h.get(k, d)" yields the default d only for a missing key and yields
None for a key present with value None; comparing None with a number
("None > 0", "max(None, 0.01)") raises TypeError, which we model with
"Except String".
-/

/-- A nullable numeric dictionary field: outer none = key missing,
    some none = present but null, some (some q) = the number q. -/
abbrev NF : Type := Option (Option ℚ)

/-- Python "h.get(k, d)" on a nullable numeric field: the default only
    replaces a missing key, a null value passes through as none. -/
def pyGet (field : NF) (default : ℚ) : Option ℚ :=
  match field with
  | none => some default
  | some v => v

/-- Python "x or 0" applied to a value that is either None or a number:
    None becomes 0, the number 0 stays 0, any other number is kept. -/
def pyOr0 (v : Option ℚ) : ℚ :=
  v.getD 0

/-- The TypeError message raised by Python when None is compared with a
    number. -/
def tyErr : String := "TypeError: comparison not supported with NoneType"

/-- Python "v > 0" where v is None or a number: raises TypeError on None. -/
def pyGtZero (v : Option ℚ) : Except String Bool :=
  match v with
  | none => .error tyErr
  | some q => .ok (decide (q > 0))

/-- Python "max(v, c)" where v is None or a number: raises TypeError on
    None. -/
def pyMaxNum (v : Option ℚ) (c : ℚ) : Except String ℚ :=
  match v with
  | none => .error tyErr
  | some q => .ok (max q c)

/-- Reference asset data joined onto quotes, holdings and signals
    (dashboard.py: the "assets" sub-record). -/
structure Asset where
  name : String
  symbol : String
  type : String
  currency : String
deriving DecidableEq, Repr

/-- One market-data row (dashboard.py fetch_market_data): price is always
    present, the other numeric fields may be missing or null. -/
structure Quote where
  assets : Asset
  price : ℚ
  price_change_pct : NF
  rsi : NF
  volume_24h : NF
deriving DecidableEq, Repr

/-- One holdings row as it circulates inside main() (dashboard.py
    fetch_holdings): the raw columns quantity, avg_price and current_value
    come from the table and may be missing or null; average_price,
    current_price and cost_basis are written by the column-mapping step of
    fetch_holdings (lines 121-123) but are kept nullable here so that the
    mapping itself can be stated as a function on this type. -/
structure Holding where
  assets : Asset
  quantity : NF
  avg_price : NF
  current_value : NF
  average_price : NF
  current_price : NF
  cost_basis : NF
deriving DecidableEq, Repr

/-- One signals row (dashboard.py fetch_signals): the signal column is a
    text field that may be missing (Python s.get with no default yields
    None, modelled as none). -/
structure Signal where
  assets : Asset
  signal : Option String
  score : NF
  rsi : NF
deriving DecidableEq, Repr

/-- The column-mapping step of fetch_holdings (dashboard.py lines 121-123):
    average_price and current_price are both set to the raw avg_price
    (default 0 when the key is missing), and cost_basis is recomputed as
    (avg_price or 0) * (quantity or 0). -/
def mapHoldingColumns (h : Holding) : Holding :=
  { h with
    average_price := some (pyGet h.avg_price 0)
    current_price := some (pyGet h.avg_price 0)
    cost_basis := some (some (pyOr0 (pyGet h.avg_price 0) * pyOr0 (pyGet h.quantity 0))) }

/-- The row list behind the portfolio pie chart (dashboard.py lines
    180-183): one (asset name, value) row per holding passing the filter
    "h.get('current_value', 0) > 0"; the filter raises TypeError when
    current_value is null, evaluated left to right as in the Python list
    comprehension. -/
def pieRows : List Holding → Except String (List (String × ℚ))
  | [] => .ok []
  | h :: rest => do
    let b ← pyGtZero (pyGet h.current_value 0)
    let tail ← pieRows rest
    if b then
      .ok ((h.assets.name, pyOr0 (pyGet h.current_value 0)) :: tail)
    else
      .ok tail

/-- create_portfolio_pie_chart (dashboard.py lines 175-192) reduced to its
    data content: none for no chart (empty holdings list or empty data
    frame), otherwise the pie rows. -/
def create_portfolio_pie_chart (holdings : List Holding) :
    Except String (Option (List (String × ℚ))) :=
  match holdings with
  | [] => .ok none
  | _ => do
    let rows ← pieRows holdings
    match rows with
    | [] => .ok none
    | _ => .ok (some rows)

/-- total_portfolio_value (dashboard.py line 297): sum of
    "h.get('current_value', 0) or 0" over all holdings; null-safe. -/
def total_portfolio_value (holdings : List Holding) : ℚ :=
  (holdings.map fun h => pyOr0 (pyGet h.current_value 0)).sum

/-- total_holdings_count (dashboard.py line 298): the number of holdings
    with "h.get('quantity', 0) > 0"; the predicate raises TypeError when
    quantity is null. -/
def total_holdings_count : List Holding → Except String ℕ
  | [] => .ok 0
  | h :: rest => do
    let b ← pyGtZero (pyGet h.quantity 0)
    let n ← total_holdings_count rest
    .ok (if b then n + 1 else n)

/-- crypto_data (dashboard.py line 293). -/
def crypto_data (market_data : List Quote) : List Quote :=
  market_data.filter fun d => d.assets.type == "crypto"

/-- stock_data (dashboard.py line 294). -/
def stock_data (market_data : List Quote) : List Quote :=
  market_data.filter fun d => d.assets.type == "stock"

/-- total_assets (dashboard.py line 303). -/
def total_assets (market_data : List Quote) : ℕ :=
  market_data.length

/-- crypto_count (dashboard.py line 304). -/
def crypto_count (market_data : List Quote) : ℕ :=
  (crypto_data market_data).length

/-- stock_count (dashboard.py line 305). -/
def stock_count (market_data : List Quote) : ℕ :=
  (stock_data market_data).length

/-- avg_change (dashboard.py line 306): mean of
    "d.get('price_change_pct', 0) or 0" with divisor max(total_assets, 1). -/
def avg_change (market_data : List Quote) : ℚ :=
  (market_data.map fun d => pyOr0 (pyGet d.price_change_pct 0)).sum /
    max (market_data.length : ℚ) 1

/-- total_cost (dashboard.py line 393): sum of
    "h.get('cost_basis', 0) or 0"; null-safe. -/
def total_cost (holdings : List Holding) : ℚ :=
  (holdings.map fun h => pyOr0 (pyGet h.cost_basis 0)).sum

/-- total_gain (dashboard.py line 394). -/
def total_gain (holdings : List Holding) : ℚ :=
  total_portfolio_value holdings - total_cost holdings

/-- total_gain_pct (dashboard.py line 395): percentage gain, 0 when
    total_cost is not positive. -/
def total_gain_pct (holdings : List Holding) : ℚ :=
  if total_cost holdings > 0 then
    total_gain holdings / total_cost holdings * 100
  else 0

/-- The Gain/Loss % column of the holdings breakdown (dashboard.py line
    422): "((h.get('current_price', 0) or 0) /
    max(h.get('average_price', 1), 0.01) - 1) * 100"; max raises TypeError
    when average_price is present but null. -/
def gain_loss_pct (h : Holding) : Except String ℚ := do
  let m ← pyMaxNum (pyGet h.average_price 1) (1 / 100)
  .ok ((pyOr0 (pyGet h.current_price 0) / m - 1) * 100)

/-- holdings_values (dashboard.py line 523): the current values of the
    holdings passing "h.get('current_value', 0) > 0"; the predicate raises
    TypeError when current_value is null. -/
def holdings_values : List Holding → Except String (List ℚ)
  | [] => .ok []
  | h :: rest => do
    let b ← pyGtZero (pyGet h.current_value 0)
    let tail ← holdings_values rest
    if b then
      .ok (pyOr0 (pyGet h.current_value 0) :: tail)
    else
      .ok tail

/-- Python max over a nonempty list (the [] case is never reached by the
    guarded call sites in dashboard.py). -/
def listMax : List ℚ → ℚ
  | [] => 0
  | q :: rest => rest.foldl max q

/-- The concentration score computed from the filtered value list
    (dashboard.py lines 524-528): 0 when the list is empty, otherwise
    min((max(values)/sum(values) * 100) * 1.5, 100). -/
def concentration_score_of (values : List ℚ) : ℚ :=
  match values with
  | [] => 0
  | _ => min (listMax values / values.sum * 100 * (3 / 2)) 100

/-- concentration_score on holdings (dashboard.py lines 522-528). -/
def concentration_score (holdings : List Holding) : Except String ℚ := do
  let values ← holdings_values holdings
  .ok (concentration_score_of values)

/-- The three risk bands of the interpretation block. -/
inductive RiskLevel where
  | low
  | medium
  | high
deriving DecidableEq, Repr

/-- The risk interpretation (dashboard.py lines 539-544): Low below 33,
    Medium below 66, High otherwise. -/
def risk_classification (score : ℚ) : RiskLevel :=
  if score < 33 then .low
  else if score < 66 then .medium
  else .high

/-- price_changes (dashboard.py line 550): null-safe list of price change
    percentages over all market data. -/
def price_changes (market_data : List Quote) : List ℚ :=
  market_data.map fun d => pyOr0 (pyGet d.price_change_pct 0)

/-- Population variance as computed inside numpy std: mean of squared
    deviations from the mean (ddof = 0). -/
def pop_variance (l : List ℚ) : ℚ :=
  if l = [] then 0
  else ((l.map fun x => (x - l.sum / l.length) ^ 2).sum) / l.length

/-- volatility (dashboard.py line 551): numpy population standard
    deviation of the price changes, 0 for an empty list (guarded by
    "if price_changes" in the source). -/
noncomputable def volatility (market_data : List Quote) : ℝ :=
  if price_changes market_data = [] then 0
  else Real.sqrt ((pop_variance (price_changes market_data) : ℚ) : ℝ)

/-- Python "s.lower()" (character-wise lower-casing, as applied to the
    asset-type filter sentinel values "Crypto" and "Stock"). -/
def pyLower (s : String) : String :=
  String.mk (s.data.map Char.toLower)

/-- The signal filter pipeline (dashboard.py lines 464-470): an optional
    kind filter (sentinel "All"), an optional asset-type filter (sentinel
    "All", compared lower-cased), then the inclusive minimum-score filter,
    applied in that order. -/
def filter_signals (signals : List Signal) (signal_filter type_filter : String)
    (min_score : ℚ) : List Signal :=
  let fs1 :=
    if signal_filter ≠ "All" then
      signals.filter fun s => s.signal == some signal_filter
    else signals
  let fs2 :=
    if type_filter ≠ "All" then
      fs1.filter fun s => s.assets.type == pyLower type_filter
    else fs1
  fs2.filter fun s => decide (pyOr0 (pyGet s.score 0) ≥ min_score)

/-! ### Helper lemmas -/

/-- The field predicate "current_value is not null once the get default is
    applied" (true also when the key is missing, since get then yields 0). -/
def cvDefined (h : Holding) : Bool :=
  (pyGet h.current_value 0).isSome

/-- The field predicate "quantity is not null once the get default is
    applied". -/
def qtyDefined (h : Holding) : Bool :=
  (pyGet h.quantity 0).isSome

/-- The pure version of the filter "current_value > 0" (meaningful on
    holdings whose current_value is not null). -/
def posCV (h : Holding) : Bool :=
  decide (0 < pyOr0 (pyGet h.current_value 0))

/-- The pure version of the filter "quantity > 0". -/
def posQty (h : Holding) : Bool :=
  decide (0 < pyOr0 (pyGet h.quantity 0))

lemma le_foldl_max (l : List ℚ) (a : ℚ) : a ≤ l.foldl max a := by
  induction l generalizing a with
  | nil => exact le_refl a
  | cons x xs ih => exact le_trans (le_max_left a x) (ih (max a x))

lemma mem_le_foldl_max {x : ℚ} {l : List ℚ} (a : ℚ) (hx : x ∈ l) :
    x ≤ l.foldl max a := by
  induction l generalizing a with
  | nil => cases hx
  | cons y ys ih =>
    rcases List.mem_cons.mp hx with h | h
    · subst h
      exact le_trans (le_max_right a x) (le_foldl_max ys (max a x))
    · exact ih (max a y) h

lemma foldl_max_mem (l : List ℚ) (a : ℚ) :
    l.foldl max a = a ∨ l.foldl max a ∈ l := by
  induction l generalizing a with
  | nil => exact Or.inl rfl
  | cons y ys ih =>
    rcases ih (max a y) with h | h
    · rcases max_choice a y with hm | hm
      · exact Or.inl (by rw [List.foldl_cons, h, hm])
      · exact Or.inr (by rw [List.foldl_cons, h, hm]; exact List.mem_cons_self y ys)
    · exact Or.inr (List.mem_cons_of_mem y h)

lemma listMax_mem {l : List ℚ} (h : l ≠ []) : listMax l ∈ l := by
  cases l with
  | nil => exact absurd rfl h
  | cons q rest =>
    rcases foldl_max_mem rest q with h' | h'
    · rw [listMax, h']; exact List.mem_cons_self q rest
    · exact List.mem_cons_of_mem q h'

lemma le_listMax {x : ℚ} {l : List ℚ} (hx : x ∈ l) : x ≤ listMax l := by
  cases l with
  | nil => cases hx
  | cons q rest =>
    rcases List.mem_cons.mp hx with h | h
    · subst h; exact le_foldl_max rest x
    · exact mem_le_foldl_max q h

lemma listMax_eq_of_greatest {l : List ℚ} {v : ℚ} (hv : v ∈ l)
    (hmax : ∀ x ∈ l, x ≤ v) : listMax l = v := by
  have hne : l ≠ [] := List.ne_nil_of_mem hv
  exact le_antisymm (hmax _ (listMax_mem hne)) (le_listMax hv)

lemma listMax_perm {l₁ l₂ : List ℚ} (h : l₁.Perm l₂) :
    listMax l₁ = listMax l₂ := by
  cases l₁ with
  | nil =>
    have : l₂ = [] := h.symm.eq_nil
    rw [this]
  | cons q rest =>
    have h₁ : (q :: rest) ≠ [] := by simp
    have h₂ : l₂ ≠ [] := by
      intro hc
      exact absurd (hc ▸ h).eq_nil (by simp)
    exact le_antisymm
      (le_listMax (h.mem_iff.mp (listMax_mem h₁)))
      (le_listMax (h.mem_iff.mpr (listMax_mem h₂)))

lemma perm_all_eq {α : Type} (p : α → Bool) {l₁ l₂ : List α}
    (h : l₁.Perm l₂) : l₁.all p = l₂.all p := by
  induction h with
  | nil => rfl
  | cons x _ ih => simp [List.all_cons, ih]
  | swap x y l => cases hp : p x <;> cases hq : p y <;> simp [List.all_cons, hp, hq]
  | trans _ _ ih1 ih2 => exact ih1.trans ih2

lemma concentration_score_of_ne_nil {l : List ℚ} (h : l ≠ []) :
    concentration_score_of l = min (listMax l / l.sum * 100 * (3 / 2)) 100 := by
  cases l with
  | nil => exact absurd rfl h
  | cons q rest => rfl

lemma concentration_score_of_perm {l₁ l₂ : List ℚ} (h : l₁.Perm l₂) :
    concentration_score_of l₁ = concentration_score_of l₂ := by
  cases l₁ with
  | nil =>
    have : l₂ = [] := h.symm.eq_nil
    rw [this]
  | cons q rest =>
    have h₁ : (q :: rest) ≠ [] := by simp
    have h₂ : l₂ ≠ [] := by
      intro hc
      exact absurd (hc ▸ h).eq_nil (by simp)
    rw [concentration_score_of_ne_nil h₁, concentration_score_of_ne_nil h₂,
      listMax_perm h, h.sum_eq]

lemma holdings_values_eq (hs : List Holding) :
    holdings_values hs =
      if hs.all cvDefined then
        .ok ((hs.filter posCV).map fun h => pyOr0 (pyGet h.current_value 0))
      else .error tyErr := by
  induction hs with
  | nil => simp [holdings_values]
  | cons h rest ih =>
    cases hcv : pyGet h.current_value 0 with
    | none =>
      simp [holdings_values, pyGtZero, hcv, cvDefined, List.all_cons, bind, Except.bind]
    | some q =>
      by_cases hall : rest.all cvDefined = true
      · simp [holdings_values, pyGtZero, hcv, cvDefined, List.all_cons, ih,
          hall, bind, Except.bind, List.filter_cons, posCV, pyOr0]
        by_cases hq : 0 < q
        · simp [hq, pyOr0, hcv]
        · simp [hq, not_lt.mp hq]
      · simp [holdings_values, pyGtZero, hcv, cvDefined, List.all_cons, ih,
          hall, bind, Except.bind]

lemma total_holdings_count_eq (hs : List Holding) :
    total_holdings_count hs =
      if hs.all qtyDefined then .ok (hs.countP posQty)
      else .error tyErr := by
  induction hs with
  | nil => simp [total_holdings_count]
  | cons h rest ih =>
    cases hq : pyGet h.quantity 0 with
    | none =>
      simp [total_holdings_count, pyGtZero, hq, qtyDefined, List.all_cons, bind, Except.bind]
    | some q =>
      by_cases hall : rest.all qtyDefined = true
      · simp [total_holdings_count, pyGtZero, hq, qtyDefined, List.all_cons, ih,
          hall, bind, Except.bind, List.countP_cons, posQty, pyOr0]
        by_cases h0 : 0 < q
        · simp [h0]
        · simp [h0]
      · simp [total_holdings_count, pyGtZero, hq, qtyDefined, List.all_cons, ih,
          hall, bind, Except.bind]

lemma pieRows_eq (hs : List Holding) :
    pieRows hs =
      if hs.all cvDefined then
        .ok ((hs.filter posCV).map fun h =>
          (h.assets.name, pyOr0 (pyGet h.current_value 0)))
      else .error tyErr := by
  induction hs with
  | nil => simp [pieRows]
  | cons h rest ih =>
    cases hcv : pyGet h.current_value 0 with
    | none =>
      simp [pieRows, pyGtZero, hcv, cvDefined, List.all_cons, bind, Except.bind]
    | some q =>
      by_cases hall : rest.all cvDefined = true
      · simp [pieRows, pyGtZero, hcv, cvDefined, List.all_cons, ih,
          hall, bind, Except.bind, List.filter_cons, posCV, pyOr0]
        by_cases hq : 0 < q
        · simp [hq, pyOr0, hcv]
        · simp [hq, not_lt.mp hq]
      · simp [pieRows, pyGtZero, hcv, cvDefined, List.all_cons, ih,
          hall, bind, Except.bind]

/-! ### Concrete sample records used by scenarios, witnesses and
    counterexamples -/

/-- A stock asset used in concrete sample records. -/
def sampleAsset : Asset :=
  ⟨"Sample", "SMP", "stock", "GBP"⟩

/-- A crypto asset used in concrete sample records. -/
def cryptoAsset : Asset :=
  ⟨"Bitcoin", "BTC", "crypto", "GBP"⟩

/-- A holding with the given numeric current_value and quantity 1. -/
def valueHolding (v : ℚ) : Holding :=
  ⟨sampleAsset, some (some 1), none, some (some v), none, none, none⟩

/-- A holding with the given numeric current_value and cost_basis. -/
def valueCostHolding (v c : ℚ) : Holding :=
  ⟨sampleAsset, some (some 1), none, some (some v), none, none, some (some c)⟩

/-- A holding whose current_value is present but null. -/
def nullValueHolding : Holding :=
  ⟨sampleAsset, some (some 1), none, some none, none, none, none⟩

/-- A holding whose quantity is present but null. -/
def nullQtyHolding : Holding :=
  ⟨sampleAsset, some none, none, some (some 5), none, none, none⟩

/-- A holding whose cost_basis is present but null. -/
def nullCostHolding : Holding :=
  ⟨sampleAsset, some (some 1), none, some (some 5), none, none, some none⟩

/-- A holding with the given numeric current_price and average_price. -/
def priceHolding (cp ap : ℚ) : Holding :=
  ⟨sampleAsset, some (some 1), none, none, some (some ap), some (some cp), none⟩

/-- A raw holdings row, before the fetch_holdings column mapping, with the
    given avg_price and quantity fields. -/
def rawHolding (ap q : NF) : Holding :=
  ⟨sampleAsset, q, ap, none, none, none, none⟩

/-- A crypto quote with the given price_change_pct field. -/
def cryptoQuote (chg : NF) : Quote :=
  ⟨cryptoAsset, 100, chg, none, none⟩

/-- A stock quote with the given price_change_pct field. -/
def stockQuote (chg : NF) : Quote :=
  ⟨sampleAsset, 50, chg, none, none⟩

/-! ### Claims -/

/-- C1: the spec says the Metrics Engine never raises on empty or
    partially-null input and that null numeric fields are treated as 0 at
    the point of entry, in particular in the predicates selecting holdings
    with current_value > 0 and quantity > 0.  The code follows this policy
    in value positions (the "or 0" idiom) and on empty input, but the
    filter predicates "h.get('current_value', 0) > 0" (dashboard.py lines
    183 and 523) and "h.get('quantity', 0) > 0" (line 298) compare a null
    field directly with 0 and raise TypeError: this theorem evaluates the
    embedded code on a one-element holdings list with a null field and
    shows the error, while the value-position aggregates on the same input
    return 0 as specified. -/
theorem C1_null_field_raises_in_filter_predicates :
    pieRows [nullValueHolding] = .error tyErr ∧
    holdings_values [nullValueHolding] = .error tyErr ∧
    total_holdings_count [nullQtyHolding] = .error tyErr ∧
    total_portfolio_value [nullValueHolding] = 0 ∧
    total_cost [nullCostHolding] = 0 ∧
    avg_change [cryptoQuote (some none)] = 0 ∧
    total_portfolio_value [] = 0 ∧
    total_cost [] = 0 ∧
    avg_change [] = 0 := by
  refine ⟨rfl, rfl, rfl, ?_, ?_, ?_, rfl, rfl, ?_⟩
  · simp [total_portfolio_value, nullValueHolding, pyGet, pyOr0]
  · simp [total_cost, nullCostHolding, pyGet, pyOr0]
  · simp [avg_change, cryptoQuote, pyGet, pyOr0]
  · simp [avg_change]

/-- C2 counterexample: the claim that increasing any single holding's
    current value never decreases the concentration score is false:
    holdings with values [60, 40] score 90, and raising the second
    (non-dominant) holding's value from 40 to 50 lowers the score to
    900/11, which is less than 90. -/
theorem C2_any_holding_monotone_counterexample :
    concentration_score [valueHolding 60, valueHolding 40] = .ok 90 ∧
    concentration_score [valueHolding 60, valueHolding 50] = .ok (900 / 11) ∧
    (40 : ℚ) < 50 ∧
    (900 / 11 : ℚ) < 90 := by
  refine ⟨?_, ?_, by norm_num, by norm_num⟩
  · simp [concentration_score, holdings_values, valueHolding, pyGet, pyGtZero,
      pyOr0, concentration_score_of, listMax, bind, Except.bind]
    norm_num
  · simp [concentration_score, holdings_values, valueHolding, pyGet, pyGtZero,
      pyOr0, concentration_score_of, listMax, bind, Except.bind]
    norm_num

/-- All values produced by the positive-value filter are positive. -/
lemma holdings_values_pos {hs : List Holding} {vs : List ℚ}
    (h : holdings_values hs = .ok vs) : ∀ x ∈ vs, 0 < x := by
  rw [holdings_values_eq] at h
  by_cases hall : hs.all cvDefined = true
  · rw [if_pos hall] at h
    injection h with h
    subst h
    intro x hx
    rcases List.mem_map.mp hx with ⟨hh, hmem, hval⟩
    have := (List.mem_filter.mp hmem).2
    rw [posCV, decide_eq_true_iff] at this
    exact hval ▸ this
  · rw [if_neg hall] at h
    cases h

/-- The concentration score over a list of positive values lies in
    [0, 100]. -/
lemma concentration_score_of_range {vs : List ℚ} (hpos : ∀ x ∈ vs, 0 < x) :
    0 ≤ concentration_score_of vs ∧ concentration_score_of vs ≤ 100 := by
  cases hvs : vs with
  | nil => exact ⟨le_refl 0, by norm_num [concentration_score_of]⟩
  | cons q rest =>
    subst hvs
    rw [concentration_score_of_ne_nil (by simp)]
    constructor
    · refine le_min ?_ (by norm_num)
      have hm : 0 ≤ listMax (q :: rest) :=
        le_of_lt (hpos _ (listMax_mem (by simp)))
      have hs : 0 ≤ (q :: rest).sum :=
        List.sum_nonneg fun x hx => le_of_lt (hpos x hx)
      positivity
    · exact min_le_right _ _

/-- C2, amended: the concentration score is monotone in the dominant
    holding's value: for a value list of positive values in which position
    v is (weakly) the maximum, replacing v by any v' with v <= v' never
    decreases the score; and every score the code computes lies in
    [0, 100].  (The unrestricted claim, for an arbitrary single holding, is
    refuted by the counterexample theorem.) -/
theorem C2_dominant_monotone_and_range :
    (∀ (pre post : List ℚ) (v v' : ℚ),
      (∀ x ∈ pre ++ v :: post, 0 < x) →
      (∀ x ∈ pre ++ v :: post, x ≤ v) →
      v ≤ v' →
      concentration_score_of (pre ++ v :: post) ≤
        concentration_score_of (pre ++ v' :: post)) ∧
    (∀ (holdings : List Holding) (s : ℚ),
      concentration_score holdings = .ok s → 0 ≤ s ∧ s ≤ 100) := by
  constructor
  · intro pre post v v' hpos hdom hvv
    have hvmem : v ∈ pre ++ v :: post := by simp
    have hvmem' : v' ∈ pre ++ v' :: post := by simp
    have hv : 0 < v := hpos _ hvmem
    have hv' : 0 < v' := lt_of_lt_of_le hv hvv
    have hdom' : ∀ x ∈ pre ++ v' :: post, x ≤ v' := by
      intro x hx
      rcases List.mem_append.mp hx with h | h
      · exact le_trans (hdom x (List.mem_append.mpr (Or.inl h))) hvv
      · rcases List.mem_cons.mp h with h | h
        · exact h.le
        · exact le_trans (hdom x (by simp [h])) hvv
    have hmax : listMax (pre ++ v :: post) = v :=
      listMax_eq_of_greatest hvmem hdom
    have hmax' : listMax (pre ++ v' :: post) = v' :=
      listMax_eq_of_greatest hvmem' hdom'
    have hsum : (pre ++ v :: post).sum = pre.sum + (v + post.sum) := by
      rw [List.sum_append, List.sum_cons]
    have hsum' : (pre ++ v' :: post).sum = pre.sum + (v' + post.sum) := by
      rw [List.sum_append, List.sum_cons]
    have hvs : v ≤ (pre ++ v :: post).sum :=
      List.single_le_sum (fun x hx => le_of_lt (hpos x hx)) v hvmem
    have hs : 0 < (pre ++ v :: post).sum := lt_of_lt_of_le hv hvs
    have hs' : 0 < (pre ++ v' :: post).sum := by
      rw [hsum'] at *
      rw [hsum] at hs
      linarith
    rw [concentration_score_of_ne_nil (by simp),
      concentration_score_of_ne_nil (by simp), hmax, hmax']
    refine min_le_min ?_ (le_refl 100)
    have hratio : v / (pre ++ v :: post).sum ≤ v' / (pre ++ v' :: post).sum := by
      rw [div_le_div_iff₀ hs hs', hsum, hsum']
      nlinarith
    have h100 : v / (pre ++ v :: post).sum * 100 ≤
        v' / (pre ++ v' :: post).sum * 100 :=
      mul_le_mul_of_nonneg_right hratio (by norm_num)
    exact mul_le_mul_of_nonneg_right h100 (by norm_num)
  · intro holdings s h
    rw [concentration_score] at h
    cases hval : holdings_values holdings with
    | error e => rw [hval] at h; cases h
    | ok vs =>
      rw [hval] at h
      simp only [bind, Except.bind] at h
      injection h with h
      subst h
      exact concentration_score_of_range (holdings_values_pos hval)

/-- Witness for the amended C2 at concrete inputs: dominant value 2 raised
    to 3 over the list [2, 1], and the concrete score 90 from the
    counterexample portfolio lies in [0, 100]. -/
theorem C2_dominant_monotone_and_range_witness :
    concentration_score_of ([] ++ (2 : ℚ) :: [1]) ≤
      concentration_score_of ([] ++ (3 : ℚ) :: [1]) ∧
    (0 ≤ (90 : ℚ) ∧ (90 : ℚ) ≤ 100) := by
  constructor
  · refine C2_dominant_monotone_and_range.1 [] [1] 2 3 ?_ ?_ (by norm_num)
    · intro x hx
      simp only [List.nil_append, List.mem_cons, List.mem_singleton] at hx
      rcases hx with h | h | h
      · rw [h]; norm_num
      · rw [h]; norm_num
      · cases h
    · intro x hx
      simp only [List.nil_append, List.mem_cons, List.mem_singleton] at hx
      rcases hx with h | h | h
      · rw [h]
      · rw [h]; norm_num
      · cases h
  · refine C2_dominant_monotone_and_range.2 [valueHolding 60, valueHolding 40] 90 ?_
    simp [concentration_score, holdings_values, valueHolding, pyGet, pyGtZero,
      pyOr0, concentration_score_of, listMax, bind, Except.bind]
    norm_num

/-- C3: the concentration risk computation: over the sub-list of values of
    holdings with positive current value, the score is 0 when that
    sub-list is empty and min((max/sum * 100) * 1.5, 100) otherwise; the
    classification is Low below 33, Medium below 66, High otherwise; and
    the concrete portfolio with values [900, 100] scores 100 and is
    classified High. -/
theorem C3_concentration_formula_and_classification :
    (∀ hs : List Holding, hs.all cvDefined = true →
      concentration_score hs = .ok (concentration_score_of
        ((hs.filter posCV).map fun h => pyOr0 (pyGet h.current_value 0)))) ∧
    concentration_score_of [] = 0 ∧
    (∀ (v : ℚ) (rest : List ℚ),
      concentration_score_of (v :: rest) =
        min (listMax (v :: rest) / (v :: rest).sum * 100 * (3 / 2)) 100) ∧
    (∀ s : ℚ, s < 33 → risk_classification s = .low) ∧
    (∀ s : ℚ, 33 ≤ s → s < 66 → risk_classification s = .medium) ∧
    (∀ s : ℚ, 66 ≤ s → risk_classification s = .high) ∧
    concentration_score [valueHolding 900, valueHolding 100] = .ok 100 ∧
    risk_classification (100 : ℚ) = .high := by
  refine ⟨?_, rfl, fun v rest => rfl, ?_, ?_, ?_, ?_, by norm_num [risk_classification]⟩
  · intro hs hall
    rw [concentration_score, holdings_values_eq, if_pos hall]
    rfl
  · intro s h
    rw [risk_classification, if_pos h]
  · intro s h1 h2
    rw [risk_classification, if_neg (not_lt.mpr h1), if_pos h2]
  · intro s h
    rw [risk_classification, if_neg (not_lt.mpr (by linarith)),
      if_neg (not_lt.mpr h)]
  · simp [concentration_score, holdings_values, valueHolding, pyGet, pyGtZero,
      pyOr0, concentration_score_of, listMax, bind, Except.bind]
    norm_num

/-- Witness for C3 at concrete inputs: the holdings-to-values link on the
    empty portfolio and the three classification bands at scores 10, 50
    and 80. -/
theorem C3_concentration_formula_and_classification_witness :
    concentration_score [] = .ok (concentration_score_of
      ((([] : List Holding).filter posCV).map fun h =>
        pyOr0 (pyGet h.current_value 0))) ∧
    risk_classification (10 : ℚ) = .low ∧
    risk_classification (50 : ℚ) = .medium ∧
    risk_classification (80 : ℚ) = .high :=
  ⟨C3_concentration_formula_and_classification.1 [] rfl,
   C3_concentration_formula_and_classification.2.2.2.1 10 (by norm_num),
   C3_concentration_formula_and_classification.2.2.2.2.1 50 (by norm_num) (by norm_num),
   C3_concentration_formula_and_classification.2.2.2.2.2.1 80 (by norm_num)⟩

/-- C4: the portfolio summary: totalGain is totalValue minus totalCost;
    totalGainPct is totalGain / totalCost * 100 when totalCost is positive
    and 0 otherwise; the active-holdings count is the number of holdings
    with quantity > 0 (on null-free input); totalValue and totalCost are
    additive sums over the holdings; and the two-holding scenario
    {value 800, cost 600}, {value 200, cost 150} yields 1000, 750, 250 and
    100/3 percent. -/
theorem C4_portfolio_summary :
    (∀ hs : List Holding,
      total_gain hs = total_portfolio_value hs - total_cost hs) ∧
    (∀ hs : List Holding, 0 < total_cost hs →
      total_gain_pct hs = total_gain hs / total_cost hs * 100) ∧
    (∀ hs : List Holding, ¬ 0 < total_cost hs → total_gain_pct hs = 0) ∧
    (∀ hs : List Holding, hs.all qtyDefined = true →
      total_holdings_count hs = .ok (hs.countP posQty)) ∧
    (∀ hs hs2 : List Holding,
      total_portfolio_value (hs ++ hs2) =
        total_portfolio_value hs + total_portfolio_value hs2 ∧
      total_cost (hs ++ hs2) = total_cost hs + total_cost hs2) ∧
    (total_portfolio_value [valueCostHolding 800 600, valueCostHolding 200 150] = 1000 ∧
     total_cost [valueCostHolding 800 600, valueCostHolding 200 150] = 750 ∧
     total_gain [valueCostHolding 800 600, valueCostHolding 200 150] = 250 ∧
     total_gain_pct [valueCostHolding 800 600, valueCostHolding 200 150] = 100 / 3 ∧
     total_holdings_count [valueCostHolding 800 600, valueCostHolding 200 150] = .ok 2) := by
  refine ⟨fun hs => rfl, ?_, ?_, ?_, ?_, ?_, ?_, ?_, ?_, ?_⟩
  · intro hs h
    rw [total_gain_pct, if_pos h]
  · intro hs h
    rw [total_gain_pct, if_neg h]
  · intro hs hall
    rw [total_holdings_count_eq, if_pos hall]
  · intro hs hs2
    constructor
    · simp [total_portfolio_value, List.sum_append]
    · simp [total_cost, List.sum_append]
  · simp [total_portfolio_value, valueCostHolding, pyGet, pyOr0]
    norm_num
  · simp [total_cost, valueCostHolding, pyGet, pyOr0]
    norm_num
  · simp [total_gain, total_portfolio_value, total_cost, valueCostHolding,
      pyGet, pyOr0]
    norm_num
  · simp [total_gain_pct, total_gain, total_portfolio_value, total_cost,
      valueCostHolding, pyGet, pyOr0]
    norm_num
  · rfl

/-- Witness for C4 at concrete inputs: the positive-cost percentage branch
    on the scenario portfolio, the zero-cost branch on the empty
    portfolio, and the active-holdings count on the empty portfolio. -/
theorem C4_portfolio_summary_witness :
    total_gain_pct [valueCostHolding 800 600, valueCostHolding 200 150] =
      total_gain [valueCostHolding 800 600, valueCostHolding 200 150] /
        total_cost [valueCostHolding 800 600, valueCostHolding 200 150] * 100 ∧
    total_gain_pct [] = 0 ∧
    total_holdings_count [] = .ok (([] : List Holding).countP posQty) :=
  ⟨C4_portfolio_summary.2.1 _ (by
      simp [total_cost, valueCostHolding, pyGet, pyOr0]
      norm_num),
   C4_portfolio_summary.2.2.1 [] (by norm_num [total_cost]),
   C4_portfolio_summary.2.2.2.1 [] rfl⟩

/-- C5: for every choice of the kind filter, asset-type filter and minimum
    score, the signal filter pipeline returns exactly the input signals
    satisfying the conjunction of the provided predicates (the "All"
    sentinel excludes nothing, the score bound is an inclusive lower
    bound), is a sublist of the input (so input order is preserved), and in
    particular with filters BUY, Crypto, 50 it keeps exactly the BUY
    signals of crypto assets with score at least 50. -/
theorem C5_filter_signals_is_conjunction :
    (∀ (signals : List Signal) (kf tf : String) (ms : ℚ),
      filter_signals signals kf tf ms =
        signals.filter fun s =>
          (kf == "All" || s.signal == some kf) &&
          ((tf == "All" || s.assets.type == pyLower tf) &&
            decide (pyOr0 (pyGet s.score 0) ≥ ms))) ∧
    (∀ (signals : List Signal) (kf tf : String) (ms : ℚ),
      (filter_signals signals kf tf ms).Sublist signals) ∧
    (∀ signals : List Signal,
      filter_signals signals "BUY" "Crypto" 50 =
        signals.filter fun s =>
          (s.signal == some "BUY") &&
          ((s.assets.type == "crypto") &&
            decide (pyOr0 (pyGet s.score 0) ≥ 50))) := by
  have hmain : ∀ (signals : List Signal) (kf tf : String) (ms : ℚ),
      filter_signals signals kf tf ms =
        signals.filter fun s =>
          (kf == "All" || s.signal == some kf) &&
          ((tf == "All" || s.assets.type == pyLower tf) &&
            decide (pyOr0 (pyGet s.score 0) ≥ ms)) := by
    intro signals kf tf ms
    by_cases hk : kf = "All" <;> by_cases ht : tf = "All"
    · subst hk; subst ht
      simp only [filter_signals, ne_eq, not_true_eq_false, if_false,
        beq_self_eq_true, Bool.true_or, Bool.true_and]
    · subst hk
      simp only [filter_signals, ne_eq, not_true_eq_false, if_false, ht,
        not_false_eq_true, if_true, beq_self_eq_true, Bool.true_or,
        Bool.true_and, List.filter_filter]
      refine List.filter_congr fun s _ => ?_
      rw [beq_eq_false_iff_ne.mpr ht, Bool.false_or, Bool.and_comm]
    · subst ht
      simp only [filter_signals, ne_eq, hk, not_false_eq_true, if_true,
        not_true_eq_false, if_false, beq_self_eq_true, Bool.true_or,
        Bool.true_and, List.filter_filter]
      refine List.filter_congr fun s _ => ?_
      rw [beq_eq_false_iff_ne.mpr hk, Bool.false_or, Bool.and_comm]
    · simp only [filter_signals, ne_eq, hk, ht, not_false_eq_true, if_true,
        List.filter_filter]
      refine List.filter_congr fun s _ => ?_
      rw [beq_eq_false_iff_ne.mpr hk, beq_eq_false_iff_ne.mpr ht,
        Bool.false_or, Bool.false_or]
      cases h1 : (s.signal == some kf) <;>
        cases h2 : (s.assets.type == pyLower tf) <;>
        cases h3 : decide (pyOr0 (pyGet s.score 0) ≥ ms) <;> rfl
  refine ⟨hmain, ?_, ?_⟩
  · intro signals kf tf ms
    rw [hmain]
    exact List.filter_sublist signals
  · intro signals
    rw [hmain]
    refine List.filter_congr fun s _ => ?_
    rfl

/-- C6: the holdings-breakdown gain percentage: whenever the
    average_price field holds a number q, the result is
    (currentPrice / max(q, 0.01) - 1) * 100 with a positive divisor (so no
    division by zero can occur), and for q = 0 the 0.01 floor turns the
    computation into (currentPrice * 100 - 1) * 100, a finite value. -/
theorem C6_gain_pct_epsilon_floor :
    (∀ (h : Holding) (q : ℚ), pyGet h.average_price 1 = some q →
      gain_loss_pct h =
        .ok ((pyOr0 (pyGet h.current_price 0) / max q (1 / 100) - 1) * 100) ∧
      0 < max q (1 / 100)) ∧
    (∀ h : Holding, pyGet h.average_price 1 = some 0 →
      gain_loss_pct h =
        .ok ((pyOr0 (pyGet h.current_price 0) * 100 - 1) * 100)) := by
  constructor
  · intro h q hq
    constructor
    · simp [gain_loss_pct, hq, pyMaxNum, bind, Except.bind]
    · exact lt_of_lt_of_le (by norm_num) (le_max_right q (1 / 100))
  · intro h h0
    simp only [gain_loss_pct, h0, pyMaxNum, bind, Except.bind]
    rw [show max (0 : ℚ) (1 / 100) = 1 / 100 from max_eq_right (by norm_num)]
    rw [div_div_eq_mul_div, div_one]

/-- Witness for C6 at a concrete holding with average price 0 and current
    price 5: the epsilon floor gives the large finite percentage 49900. -/
theorem C6_gain_pct_epsilon_floor_witness :
    (gain_loss_pct (priceHolding 5 0) =
        .ok ((pyOr0 (pyGet (priceHolding 5 0).current_price 0) /
          max 0 (1 / 100) - 1) * 100) ∧
      (0 : ℚ) < max 0 (1 / 100)) ∧
    gain_loss_pct (priceHolding 5 0) =
      .ok ((pyOr0 (pyGet (priceHolding 5 0).current_price 0) * 100 - 1) * 100) :=
  ⟨C6_gain_pct_epsilon_floor.1 (priceHolding 5 0) 0 rfl,
   C6_gain_pct_epsilon_floor.2 (priceHolding 5 0) rfl⟩

/-- C7: the market summary: the total count is the list length, the crypto
    and stock counts count the quotes whose asset type is "crypto" and
    "stock", the average change times max(count, 1) recovers the sum of the
    null-defaulted change percentages, the empty list yields all zeros, and
    the two-quote scenario (crypto +5, stock -3) yields total 2, crypto 1,
    stock 1, average +1. -/
theorem C7_market_summary :
    (∀ md : List Quote,
      total_assets md = md.length ∧
      crypto_count md = md.countP (fun d => d.assets.type == "crypto") ∧
      stock_count md = md.countP (fun d => d.assets.type == "stock") ∧
      avg_change md * max (md.length : ℚ) 1 = (price_changes md).sum) ∧
    (total_assets [] = 0 ∧ crypto_count [] = 0 ∧ stock_count [] = 0 ∧
      avg_change [] = 0) ∧
    (total_assets [cryptoQuote (some (some 5)), stockQuote (some (some (-3)))] = 2 ∧
     crypto_count [cryptoQuote (some (some 5)), stockQuote (some (some (-3)))] = 1 ∧
     stock_count [cryptoQuote (some (some 5)), stockQuote (some (some (-3)))] = 1 ∧
     avg_change [cryptoQuote (some (some 5)), stockQuote (some (some (-3)))] = 1) := by
  refine ⟨?_, ⟨rfl, rfl, rfl, by norm_num [avg_change]⟩, rfl, rfl, rfl, ?_⟩
  · intro md
    refine ⟨rfl, ?_, ?_, ?_⟩
    · rw [crypto_count, crypto_data, List.countP_eq_length_filter]
    · rw [stock_count, stock_data, List.countP_eq_length_filter]
    · rw [avg_change, price_changes,
        div_mul_cancel₀ _ (ne_of_gt (lt_of_lt_of_le one_pos (le_max_right _ 1)))]
  · simp [avg_change, cryptoQuote, stockQuote, pyGet, pyOr0]
    norm_num

/-- C8: round-trip between the pie-chart adapter and the portfolio total:
    on null-free input the pie rows are exactly one (name, value) row per
    holding with positive current value (non-positive holdings are excluded
    entirely), and the sum of the row values equals the portfolio total
    value restricted to the positive-value holdings. -/
theorem C8_pie_roundtrip :
    ∀ hs : List Holding, hs.all cvDefined = true →
      ∀ rows, pieRows hs = .ok rows →
        rows = (hs.filter posCV).map
          (fun h => (h.assets.name, pyOr0 (pyGet h.current_value 0))) ∧
        (rows.map Prod.snd).sum = total_portfolio_value (hs.filter posCV) := by
  intro hs hall rows hrows
  rw [pieRows_eq, if_pos hall] at hrows
  injection hrows with hrows
  subst hrows
  refine ⟨rfl, ?_⟩
  rw [List.map_map, total_portfolio_value]
  rfl

/-- Witness for C8 on the concrete portfolio [value 2, value 0]: the zero
    holding is dropped and the row values sum to the restricted total. -/
theorem C8_pie_roundtrip_witness :
    [(sampleAsset.name, (2 : ℚ))] =
      ([valueHolding 2, valueHolding 0].filter posCV).map
        (fun h => (h.assets.name, pyOr0 (pyGet h.current_value 0))) ∧
    ([(sampleAsset.name, (2 : ℚ))].map Prod.snd).sum =
      total_portfolio_value ([valueHolding 2, valueHolding 0].filter posCV) :=
  C8_pie_roundtrip [valueHolding 2, valueHolding 0] (by
      simp [cvDefined, valueHolding, pyGet])
    [(sampleAsset.name, 2)] (by
      simp [pieRows, valueHolding, pyGet, pyGtZero, pyOr0, bind, Except.bind,
        sampleAsset])

/-- C9: after the fetch_holdings column mapping, current_price always
    equals average_price (the avg_price column; no live price is looked
    up), and consequently the displayed Gain/Loss % is 0 for every holding
    whose average price is at least the 0.01 floor. -/
theorem C9_current_price_is_placeholder :
    (∀ h : Holding,
      (mapHoldingColumns h).current_price = (mapHoldingColumns h).average_price) ∧
    (∀ (h : Holding) (p : ℚ), pyGet h.avg_price 0 = some p → 1 / 100 ≤ p →
      gain_loss_pct (mapHoldingColumns h) = .ok 0) := by
  constructor
  · intro h
    rfl
  · intro h p hp hge
    have hpos : (0 : ℚ) < p := lt_of_lt_of_le (by norm_num) hge
    have hap : pyGet (mapHoldingColumns h).average_price 1 = some p := hp
    have hcp : pyGet (mapHoldingColumns h).current_price 0 = some p := hp
    simp only [gain_loss_pct, hap, hcp, pyMaxNum, pyOr0, Option.getD,
      bind, Except.bind]
    rw [max_eq_left hge, div_self (ne_of_gt hpos)]
    norm_num

/-- Witness for C9 at a concrete raw holding with avg_price 5: after the
    mapping the two price fields agree and the gain percentage is 0. -/
theorem C9_current_price_is_placeholder_witness :
    (mapHoldingColumns (rawHolding (some (some 5)) (some (some 2)))).current_price =
      (mapHoldingColumns (rawHolding (some (some 5)) (some (some 2)))).average_price ∧
    gain_loss_pct (mapHoldingColumns (rawHolding (some (some 5)) (some (some 2)))) =
      .ok 0 :=
  ⟨C9_current_price_is_placeholder.1 (rawHolding (some (some 5)) (some (some 2))),
   C9_current_price_is_placeholder.2 (rawHolding (some (some 5)) (some (some 2))) 5
     rfl (by norm_num)⟩

/-- The population variance is invariant under permutation of the
    samples. -/
lemma pop_variance_perm {l₁ l₂ : List ℚ} (h : l₁.Perm l₂) :
    pop_variance l₁ = pop_variance l₂ := by
  by_cases h₁ : l₁ = []
  · subst h₁
    rw [h.symm.eq_nil]
  · have h₂ : l₂ ≠ [] := fun hc => h₁ ((hc ▸ h).eq_nil)
    rw [pop_variance, pop_variance, if_neg h₁, if_neg h₂, h.sum_eq, h.length_eq,
      (h.map fun x => (x - l₂.sum / l₂.length) ^ 2).sum_eq]

/-- The concentration score is invariant under permutation of the
    holdings. -/
lemma concentration_score_perm {hs hs2 : List Holding} (h : hs.Perm hs2) :
    concentration_score hs = concentration_score hs2 := by
  rw [concentration_score, concentration_score, holdings_values_eq,
    holdings_values_eq, perm_all_eq cvDefined h]
  by_cases hall : hs2.all cvDefined = true
  · rw [if_pos hall, if_pos hall]
    simp only [bind, Except.bind]
    exact congrArg Except.ok
      (concentration_score_of_perm
        ((h.filter posCV).map fun hh => pyOr0 (pyGet hh.current_value 0)))
  · rw [if_neg hall, if_neg hall]

/-- C10: every aggregate metric is invariant under permutation of its
    input rows: the asset counts and average change, the volatility proxy,
    the portfolio totals and active-holdings count, and the concentration
    score together with its classification are unchanged by reordering the
    quotes or the holdings. -/
theorem C10_permutation_invariance :
    (∀ md md2 : List Quote, md.Perm md2 →
      total_assets md = total_assets md2 ∧
      crypto_count md = crypto_count md2 ∧
      stock_count md = stock_count md2 ∧
      avg_change md = avg_change md2 ∧
      volatility md = volatility md2) ∧
    (∀ hs hs2 : List Holding, hs.Perm hs2 →
      total_portfolio_value hs = total_portfolio_value hs2 ∧
      total_cost hs = total_cost hs2 ∧
      total_gain hs = total_gain hs2 ∧
      total_holdings_count hs = total_holdings_count hs2 ∧
      concentration_score hs = concentration_score hs2 ∧
      (concentration_score hs).map risk_classification =
        (concentration_score hs2).map risk_classification) := by
  constructor
  · intro md md2 h
    have hpc : (price_changes md).Perm (price_changes md2) := by
      rw [price_changes, price_changes]
      exact h.map fun d => pyOr0 (pyGet d.price_change_pct 0)
    refine ⟨?_, ?_, ?_, ?_, ?_⟩
    · rw [total_assets, total_assets, h.length_eq]
    · rw [crypto_count, crypto_count, crypto_data, crypto_data,
        (h.filter fun d => d.assets.type == "crypto").length_eq]
    · rw [stock_count, stock_count, stock_data, stock_data,
        (h.filter fun d => d.assets.type == "stock").length_eq]
    · rw [avg_change, avg_change,
        (h.map fun d => pyOr0 (pyGet d.price_change_pct 0)).sum_eq, h.length_eq]
    · by_cases hnil : price_changes md = []
      · rw [volatility, volatility, if_pos hnil,
          if_pos ((hnil ▸ hpc).symm.eq_nil)]
      · have hnil2 : price_changes md2 ≠ [] := fun hc => hnil ((hc ▸ hpc).eq_nil)
        rw [volatility, volatility, if_neg hnil, if_neg hnil2,
          pop_variance_perm hpc]
  · intro hs hs2 h
    have hscore : concentration_score hs = concentration_score hs2 :=
      concentration_score_perm h
    refine ⟨?_, ?_, ?_, ?_, hscore, by rw [hscore]⟩
    · rw [total_portfolio_value, total_portfolio_value,
        (h.map fun hh => pyOr0 (pyGet hh.current_value 0)).sum_eq]
    · rw [total_cost, total_cost,
        (h.map fun hh => pyOr0 (pyGet hh.cost_basis 0)).sum_eq]
    · rw [total_gain, total_gain, total_portfolio_value, total_portfolio_value,
        total_cost, total_cost,
        (h.map fun hh => pyOr0 (pyGet hh.current_value 0)).sum_eq,
        (h.map fun hh => pyOr0 (pyGet hh.cost_basis 0)).sum_eq]
    · rw [total_holdings_count_eq, total_holdings_count_eq,
        perm_all_eq qtyDefined h, h.countP_eq posQty]

/-- Witness for C10 on concrete two-element lists and the swap
    permutation. -/
theorem C10_permutation_invariance_witness :
    (total_assets [cryptoQuote (some (some 5)), stockQuote (some (some (-3)))] =
        total_assets [stockQuote (some (some (-3))), cryptoQuote (some (some 5))] ∧
      crypto_count [cryptoQuote (some (some 5)), stockQuote (some (some (-3)))] =
        crypto_count [stockQuote (some (some (-3))), cryptoQuote (some (some 5))] ∧
      stock_count [cryptoQuote (some (some 5)), stockQuote (some (some (-3)))] =
        stock_count [stockQuote (some (some (-3))), cryptoQuote (some (some 5))] ∧
      avg_change [cryptoQuote (some (some 5)), stockQuote (some (some (-3)))] =
        avg_change [stockQuote (some (some (-3))), cryptoQuote (some (some 5))] ∧
      volatility [cryptoQuote (some (some 5)), stockQuote (some (some (-3)))] =
        volatility [stockQuote (some (some (-3))), cryptoQuote (some (some 5))]) ∧
    (total_portfolio_value [valueHolding 1, valueHolding 2] =
        total_portfolio_value [valueHolding 2, valueHolding 1] ∧
      total_cost [valueHolding 1, valueHolding 2] =
        total_cost [valueHolding 2, valueHolding 1] ∧
      total_gain [valueHolding 1, valueHolding 2] =
        total_gain [valueHolding 2, valueHolding 1] ∧
      total_holdings_count [valueHolding 1, valueHolding 2] =
        total_holdings_count [valueHolding 2, valueHolding 1] ∧
      concentration_score [valueHolding 1, valueHolding 2] =
        concentration_score [valueHolding 2, valueHolding 1] ∧
      (concentration_score [valueHolding 1, valueHolding 2]).map risk_classification =
        (concentration_score [valueHolding 2, valueHolding 1]).map risk_classification) :=
  ⟨C10_permutation_invariance.1
      [cryptoQuote (some (some 5)), stockQuote (some (some (-3)))]
      [stockQuote (some (some (-3))), cryptoQuote (some (some 5))]
      (List.Perm.swap (stockQuote (some (some (-3)))) (cryptoQuote (some (some 5))) []),
   C10_permutation_invariance.2
      [valueHolding 1, valueHolding 2] [valueHolding 2, valueHolding 1]
      (List.Perm.swap (valueHolding 2) (valueHolding 1) [])⟩
